import Mathlib

/-!
Shallow embedding of the CylAlon/coroutine cooperative scheduler.

The main implementation is `src/coroutine.c` (functions `CorInit`, `CorCreate`,
`CorDelete`, `Yield`, `Suspend`, `CorResume`, `CorRestart`, `CorSetTimeout`,
`CorBegin`, `CorEnd`, `corTimeoutDisp`, `switchNext`, `corGetNextTaskId`,
`CorStart`).  The repository also ships a header revision
(`src/unnamed/part_000`) declaring a three-argument
`yield(label, state, timeout)` together with the macros `cor_yield` and
`cor_sleep`; the body of that `yield` is not among the source files, so it is
modelled from the spec where needed (marked below).

Machine integers are embedded as `Nat`/`Int`, with `% 2^32` made explicit
where the C code relies on unsigned 32-bit wraparound.  C pointers that are
only compared with `NULL` (callbacks, labels, arguments, the tick source) are
embedded as `Option Nat` holding an abstract identifier.
-/

/-- Coroutine states, from the `cor_state_t` enum in `src/unnamed/part_000`
(lines 52-62); these are the same constants `src/coroutine.c` manipulates via
its `toReady` / `isNone` / ... macros. `COR_NONE` is the zero value, so a
`memset`-zeroed slot is in state `COR_NONE`. -/
inductive CorState
  | COR_NONE
  | COR_CREATED
  | COR_READY
  | COR_RUNNING
  | COR_BLOCKED
  | COR_WAITING
  | COR_SUSPEND
  | COR_TERMINATED
deriving DecidableEq, Repr

open CorState

/-- Switch states, from the `switch_state_t` enum in `src/unnamed/part_000`
(lines 63-67). -/
inductive SwitchState
  | SW_NORMAL
  | SW_ABORT
deriving DecidableEq, Repr

/-- Per-coroutine record of the `src/unnamed/part_000` revision
(`Coroutine_t`, lines 69-81): callback, argument, label, timeout and the
state/swstate bitfield. Pointers are abstract `Option Nat` identifiers. -/
structure CoroutineP where
  callback : Option Nat
  arg : Option Nat
  label : Option Nat
  timeout : Nat
  state : CorState
  swstate : SwitchState
deriving DecidableEq, Repr

/-- Modelled from the spec: the body of `yield(label, state, timeout)`
(declared at `src/unnamed/part_000` line 90 and called by the `cor_yield`,
`cor_sleep` and mutex macros) is not among the source files; only its
declaration and macro call sites are.  Spec section 4.3.2: "Records `anchor`,
sets `state := new_state`, `timeout := timeout`, `switch_state := ABORT`." -/
def yield (anchor : Nat) (st : CorState) (tmo : Nat) (c : CoroutineP) : CoroutineP :=
  { c with label := some anchor, state := st, timeout := tmo,
           swstate := SwitchState.SW_ABORT }

/-- The `cor_sleep(ms)` macro of `src/unnamed/part_000` (lines 159-165):
`yield(&&UNIQUE_LABEL, COR_WAITING, (ms) < 100 ? (ms) : (ms)-1)`, applied to
the running coroutine's record. -/
def cor_sleep (ms : Nat) (anchor : Nat) (c : CoroutineP) : CoroutineP :=
  yield anchor COR_WAITING (if ms < 100 then ms else ms - 1) c

/-- Per-coroutine record used by `src/coroutine.c` (fields as accessed through
the `COR_FUNC` / `COR_ARG` / `COR_LABEL` / `COR_LABEL_FLAG` / `COR_TIMEOUT` /
`COR_LAST_TICK` / `COR_STATE` macros). -/
structure Coroutine where
  func : Option Nat
  arg : Option Nat
  label : Option Nat
  labelFlag : Bool
  timeout : Nat
  lastTick : Nat
  state : CorState
deriving DecidableEq, Repr

/-- An all-zero coroutine record, the result of `memset(..., 0, ...)` in
`CorInit` (state `COR_NONE` is the zero enumerator). -/
def corZero : Coroutine :=
  { func := none, arg := none, label := none, labelFlag := false,
    timeout := 0, lastTick := 0, state := COR_NONE }

/-- The scheduler state of `src/coroutine.c`: the `corSys` struct (`cap`,
`index`, `coroutines`), the global `getTick` function pointer (abstract
identifier, `none` = `NULL`), and the `static uint32_t tick` local of
`corGetNextTaskId`. -/
structure CorSysT where
  cap : Int
  index : Int
  coroutines : List Coroutine
  tickSrc : Option Nat
  staticTick : Nat
deriving DecidableEq, Repr

/-- The `COR(handle)` access `corSys.coroutines[handle]` (reads out of range
return the zero record; the C guards keep real executions in range). -/
def corGet (s : CorSysT) (i : Int) : Coroutine :=
  s.coroutines.getD i.toNat corZero

/-- Writing `corSys.coroutines[i]` (out-of-range writes are dropped). -/
def corSet (s : CorSysT) (i : Int) (c : Coroutine) : CorSysT :=
  { s with coroutines := s.coroutines.set i.toNat c }

/-- The `CHANGE_STATE(handle, status)` macro of `src/coroutine.c`. -/
def changeState (s : CorSysT) (i : Int) (st : CorState) : CorSysT :=
  corSet s i { corGet s i with state := st }

/-- Abstract identifier standing for the `CorIdleFunc` function pointer. -/
def CorIdleFuncId : Nat := 0

/-- `CorInit` (`src/coroutine.c` lines 95-115): rejects `cap <= 1`,
`cap > COR_MAX_CAP` (= 32) and a `NULL` tick source; otherwise installs a
zeroed table of `cap` slots with the idle coroutine ready at slot 0, sets
`INDEX = -1` and registers the tick source.  Allocation is assumed to
succeed.  The `static` tick of `corGetNextTaskId` is not touched. -/
def CorInit (cap : Int) (tick : Option Nat) (s : CorSysT) : Bool × CorSysT :=
  if cap ≤ 1 ∨ 32 < cap ∨ tick = none then (false, s)
  else
    (true,
      { s with cap := cap, index := -1, tickSrc := tick,
               coroutines := (List.replicate cap.toNat corZero).set 0
                 { corZero with func := some CorIdleFuncId, state := COR_READY } })

/-- The slot-search loop of `CorCreate`: `for (i = 1; i < cap; ++i)
if (isNone(i)) ...`, returning the first slot in state `COR_NONE`.  The fuel
argument bounds the iteration count (callers pass `cap`, enough to cover the
whole loop range). -/
def findNoneFrom (cs : List Coroutine) (cap : Nat) : Nat → Nat → Option Nat
  | _, 0 => none
  | i, fuel + 1 =>
    if i < cap then
      if (cs.getD i corZero).state = COR_NONE then some i
      else findNoneFrom cs cap (i + 1) fuel
    else none

/-- `CorCreate` (`src/coroutine.c` lines 125-143).  The handle pointer is
modelled by its pointed-to value `hv` (`-1` plays the role of the required
initial value); the returned triple is (result, value of `*handle` after the
call, new scheduler state). -/
def CorCreate (hv : Int) (f a : Option Nat) (s : CorSysT) : Bool × Int × CorSysT :=
  if hv ≠ -1 ∨ f = none then (false, hv, s)
  else
    match findNoneFrom s.coroutines s.cap.toNat 1 s.cap.toNat with
    | some i =>
        (true, (i : Int),
          corSet s i { corGet s i with func := f, arg := a, state := COR_READY })
    | none => (false, hv, s)

/-- `CorDelete` (`src/coroutine.c` lines 145-160).  Guard:
`isNotNull(handle) || !isIdle(*handle) || isNone(*handle)` with
`isNotNull(handle) = (handle != NULL && *handle != -1)` and
`isIdle(h) = (h == CorIdleHandle)` where `CorIdleHandle = 0`.  The handle
pointer is modelled by its value `hv` (a `NULL` pointer would be dereferenced
by the guard, which is undefined behaviour, so only non-null handles are
modelled). -/
def CorDelete (hv : Int) (s : CorSysT) : Bool × Int × CorSysT :=
  if (hv ≠ -1) ∨ ¬(hv = 0) ∨ (corGet s hv).state = COR_NONE then (false, hv, s)
  else
    (true, -1,
      corSet s hv { func := none, arg := none, label := none, labelFlag := false,
                    timeout := 0, lastTick := 0, state := COR_NONE })

/-- `switchNext` (`src/coroutine.c` lines 162-171): advance `INDEX` by one,
wrapping to 0 when it reaches `CAP`. -/
def switchNext (s : CorSysT) : Int × CorSysT :=
  let next : Int := if s.index + 1 ≥ s.cap then 0 else s.index + 1
  (next, { s with index := next })

/-- `CorSetTimeout` (`src/coroutine.c` lines 234-238): writes the slot at
`INDEX` (the current coroutine), recording the timeout and the current tick.
The tick source is modelled by passing the value `now` it returns. -/
def CorSetTimeout (now : Nat) (tmo : Nat) (s : CorSysT) : CorSysT :=
  corSet s s.index { corGet s s.index with timeout := tmo, lastTick := now }

/-- `corSetLabel` (`src/coroutine.c` lines 224-227). -/
def corSetLabel (lbl : Option Nat) (s : CorSysT) : CorSysT :=
  corSet s s.index { corGet s s.index with label := lbl }

/-- `corSetLabelFlag` (`src/coroutine.c` lines 214-217). -/
def corSetLabelFlag (b : Bool) (s : CorSysT) : CorSysT :=
  corSet s s.index { corGet s s.index with labelFlag := b }

/-- `Yield` (`src/coroutine.c` lines 173-182): no-op when the current slot is
`COR_NONE`; otherwise marks it `COR_WAITING`, clears its timeout (sampling the
tick) and records the label. -/
def Yield (now : Nat) (lbl : Option Nat) (s : CorSysT) : CorSysT :=
  if (corGet s s.index).state = COR_NONE then s
  else corSetLabel lbl (CorSetTimeout now 0 (changeState s s.index COR_WAITING))

/-- `Suspend` (`src/coroutine.c` lines 184-196). -/
def Suspend (h : Option Int) (s : CorSysT) : CorSysT :=
  match h with
  | none => changeState s s.index COR_SUSPEND
  | some hv =>
    if hv = -1 ∨ (corGet s hv).state = COR_NONE ∨
        (corGet s hv).state = COR_TERMINATED ∨ (corGet s hv).state = COR_CREATED then s
    else changeState s hv COR_SUSPEND

/-- `CorResume` (`src/coroutine.c` lines 198-206): after the guard it runs
`toReady(*handle); CorSetTimeout(0);` — note that `CorSetTimeout` writes the
slot at `INDEX`, not the slot `*handle`. -/
def CorResume (now : Nat) (hv : Int) (s : CorSysT) : CorSysT :=
  if hv = -1 ∨ (corGet s hv).state = COR_NONE ∨ (corGet s hv).state = COR_TERMINATED then s
  else CorSetTimeout now 0 (changeState s hv COR_READY)

/-- `CorRestart` (`src/coroutine.c` lines 208-212). -/
def CorRestart (now : Nat) (hv : Int) (s : CorSysT) : CorSysT :=
  corSetLabelFlag false (CorResume now hv s)

/-- `CorBegin` (`src/coroutine.c` lines 240-248): returns the resume label,
installing `lbl` on first entry. -/
def CorBegin (lbl : Option Nat) (s : CorSysT) : Option Nat × CorSysT :=
  if (corGet s s.index).labelFlag = false then
    let s' := corSetLabelFlag true (corSetLabel lbl s)
    ((corGet s' s'.index).label, s')
  else ((corGet s s.index).label, s)

/-- `CorEnd` (`src/coroutine.c` lines 250-254). -/
def CorEnd (lbl : Option Nat) (s : CorSysT) : CorSysT :=
  corSetLabelFlag false (corSetLabel lbl s)

/-- Unsigned 32-bit subtraction `a - b`, the `tick - COR_LAST_TICK(i)`
computation of `corTimeoutDisp`. -/
def usub32 (a b : Nat) : Nat :=
  (a % 4294967296 + 4294967296 - b % 4294967296) % 4294967296

/-- The loop body of `corTimeoutDisp` (`src/coroutine.c` lines 256-279) for
one slot: skip unless `WAITING`; with a positive timeout wake the slot when
`tick - lastTick >= timeout` under unsigned 32-bit subtraction; with timeout 0
wake it unconditionally.  The tick source is modelled as returning `now` at
every call within the pass. -/
def corTimeoutStep (now : Nat) (c : Coroutine) : Coroutine :=
  if c.state = COR_NONE ∨ c.state = COR_TERMINATED ∨ c.state = COR_CREATED ∨
      ¬(c.state = COR_WAITING) then c
  else if 0 < c.timeout then
    if c.timeout ≤ usub32 now c.lastTick then
      { c with lastTick := now, timeout := 0, state := COR_READY }
    else c
  else { c with state := COR_READY }

/-- Apply `f` to the first `n` elements of a list, leaving the rest alone;
this is the shape of a `for (i = 0; i < cap; i++)` loop whose body reads and
writes only slot `i`. -/
def mapFirst (f : Coroutine → Coroutine) : Nat → List Coroutine → List Coroutine
  | _, [] => []
  | 0, l => l
  | n + 1, c :: t => f c :: mapFirst f n t

/-- `corTimeoutDisp` (`src/coroutine.c` lines 256-279): the timeout-manager
pass over slots `0 .. cap-1`. -/
def corTimeoutDisp (now : Nat) (s : CorSysT) : CorSysT :=
  { s with coroutines := mapFirst (corTimeoutStep now) s.cap.toNat s.coroutines }

/-- The `index = switchNext(); while (!isReady(index)) index = switchNext();`
loop of `corGetNextTaskId`.  The C loop runs without bound; one full lap of
`cap` probes visits every slot, after which the probe sequence repeats, so a
fuel of `cap` is exact: `none` means the C loop never terminates. -/
def scanReady : Nat → CorSysT → Option (Int × CorSysT)
  | 0, _ => none
  | fuel + 1, s =>
    let p := switchNext s
    if (corGet p.2 p.1).state = COR_READY then some p
    else scanReady fuel p.2

/-- `corGetNextTaskId` (`src/coroutine.c` lines 280-301): if the current slot
is valid, `READY`, and the tick has moved since the last dispatch, re-select
it at once; otherwise run the timeout manager and scan round-robin for the
next `READY` slot, marking the selection `RUNNING`. -/
def corGetNextTaskId (now : Nat) (s : CorSysT) : Option (Int × CorSysT) :=
  if s.index ≠ -1 ∧ (corGet s s.index).state = COR_READY ∧ now ≠ s.staticTick then
    some (s.index, changeState { s with staticTick := now } s.index COR_RUNNING)
  else
    match scanReady (corTimeoutDisp now s).cap.toNat (corTimeoutDisp now s) with
    | none => none
    | some (j, s2) => some (j, changeState { s2 with staticTick := now } j COR_RUNNING)

/-- One scheduler-mutating operation of an init cycle: the public API of
`src/coroutine.c` other than `CorInit` / `CorDestroy`, plus the dispatcher
steps of `CorStart` (selection, and the `if (isRunning(index)) toReady(index)`
re-arm).  Tick-source reads are carried as the `now` values they return. -/
inductive CorOp
  | create (hv : Int) (f a : Option Nat)
  | delete (hv : Int)
  | resume (now : Nat) (hv : Int)
  | restart (now : Nat) (hv : Int)
  | susp (h : Option Int)
  | yld (now : Nat) (lbl : Option Nat)
  | setTmo (now tmo : Nat)
  | tdisp (now : Nat)
  | disp (now : Nat)
  | rearm
  | cbeg (lbl : Option Nat)
  | cend (lbl : Option Nat)
deriving DecidableEq, Repr

/-- Effect of one operation on the scheduler state (a diverging dispatch scan
leaves the state unchanged — in the C program it never returns, so no further
state is observed either). -/
def stepOp (op : CorOp) (s : CorSysT) : CorSysT :=
  match op with
  | .create hv f a => (CorCreate hv f a s).2.2
  | .delete hv => (CorDelete hv s).2.2
  | .resume now hv => CorResume now hv s
  | .restart now hv => CorRestart now hv s
  | .susp h => Suspend h s
  | .yld now lbl => Yield now lbl s
  | .setTmo now tmo => CorSetTimeout now tmo s
  | .tdisp now => corTimeoutDisp now s
  | .disp now =>
    match corGetNextTaskId now s with
    | some p => p.2
    | none => s
  | .rearm =>
    if (corGet s s.index).state = COR_RUNNING then changeState s s.index COR_READY else s
  | .cbeg lbl => (CorBegin lbl s).2
  | .cend lbl => CorEnd lbl s

/-- Run a sequence of operations. -/
def runOps (ops : List CorOp) (s : CorSysT) : CorSysT :=
  ops.foldl (fun s op => stepOp op s) s

/-- Concrete scheduler state for exercising `CorResume`: three slots, the
current coroutine at slot 1 (`RUNNING`, timeout 7), and slot 2 `WAITING` with
timeout 50. -/
def resumeBugSys : CorSysT :=
  { cap := 3, index := 1,
    coroutines :=
      [{ corZero with func := some CorIdleFuncId, state := COR_READY },
       { corZero with func := some 1, timeout := 7, state := COR_RUNNING },
       { corZero with func := some 2, timeout := 50, state := COR_WAITING }],
    tickSrc := some 0, staticTick := 0 }

/-- Reading a slot of a list after `set`: the written value inside the list,
everything else unchanged. -/
theorem getD_set {α : Type} (l : List α) (i j : Nat) (c d : α) :
    (l.set i c).getD j d = if i = j ∧ i < l.length then c else l.getD j d := by
  induction l generalizing i j with
  | nil => simp
  | cons a t ih =>
    cases i with
    | zero =>
      cases j with
      | zero => simp
      | succ j' => simp
    | succ i' =>
      cases j with
      | zero => simp
      | succ j' =>
        simpa [Nat.succ_lt_succ_iff] using ih i' j'

/-- Reading a slot after `mapFirst`. -/
theorem getD_mapFirst (f : Coroutine → Coroutine) (n : Nat) (l : List Coroutine)
    (j : Nat) (d : Coroutine) :
    (mapFirst f n l).getD j d =
      if j < n ∧ j < l.length then f (l.getD j d) else l.getD j d := by
  induction l generalizing n j with
  | nil => cases n <;> simp [mapFirst]
  | cons a t ih =>
    cases n with
    | zero => simp [mapFirst]
    | succ n' =>
      cases j with
      | zero => simp [mapFirst]
      | succ j' => simpa [mapFirst, Nat.succ_lt_succ_iff] using ih n' j'

/-- Reading a slot after `corSet`. -/
theorem corGet_corSet (s : CorSysT) (i : Int) (c : Coroutine) (j : Int) :
    corGet (corSet s i c) j =
      if i.toNat = j.toNat ∧ i.toNat < s.coroutines.length then c else corGet s j :=
  getD_set s.coroutines i.toNat j.toNat c corZero

/-- C1: for every ms, `cor_sleep(ms)` suspends the calling coroutine by
yielding with state `COR_WAITING` and a timeout equal to `ms` when `ms < 100`
and to `ms - 1` when `100 ≤ ms`. -/
theorem cor_sleep_timeout_rule (ms anchor : Nat) (c : CoroutineP) :
    (cor_sleep ms anchor c).state = COR_WAITING ∧
    (ms < 100 → (cor_sleep ms anchor c).timeout = ms) ∧
    (100 ≤ ms → (cor_sleep ms anchor c).timeout = ms - 1) := by
  refine ⟨rfl, fun h => ?_, fun h => ?_⟩
  · simp [cor_sleep, yield, h]
  · simp [cor_sleep, yield, Nat.not_lt.mpr h]

/-- Witness for C1 at ms = 50 (short wait, exact) and ms = 1000 (long wait,
off by one). -/
theorem cor_sleep_timeout_rule_witness :
    ((50 : Nat) < 100 ∧
      (cor_sleep 50 7 ⟨none, none, none, 0, COR_NONE, SwitchState.SW_NORMAL⟩).timeout = 50) ∧
    (100 ≤ (1000 : Nat) ∧
      (cor_sleep 1000 7 ⟨none, none, none, 0, COR_NONE, SwitchState.SW_NORMAL⟩).timeout = 999) :=
  ⟨⟨by decide, (cor_sleep_timeout_rule 50 7 _).2.1 (by decide)⟩,
   ⟨by decide, (cor_sleep_timeout_rule 1000 7 _).2.2 (by decide)⟩⟩

/-- C2: `yield(anchor, new_state, timeout)` called with `new_state` one of
READY, WAITING, BLOCKED, SUSPEND leaves the coroutine record holding the given
anchor, state equal to `new_state`, the given timeout, and switch state
ABORT. -/
theorem yield_records (anchor tmo : Nat) (st : CorState) (c : CoroutineP)
    (h : st = COR_READY ∨ st = COR_WAITING ∨ st = COR_BLOCKED ∨ st = COR_SUSPEND) :
    (yield anchor st tmo c).label = some anchor ∧
    (yield anchor st tmo c).state = st ∧
    (yield anchor st tmo c).timeout = tmo ∧
    (yield anchor st tmo c).swstate = SwitchState.SW_ABORT :=
  ⟨rfl, rfl, rfl, rfl⟩

/-- Witness for C2 at a concrete record and state `COR_WAITING`. -/
theorem yield_records_witness :
    (COR_WAITING = COR_READY ∨ COR_WAITING = COR_WAITING ∨
      COR_WAITING = COR_BLOCKED ∨ COR_WAITING = COR_SUSPEND) ∧
    ((yield 9 COR_WAITING 42 ⟨some 1, none, none, 0, COR_RUNNING, SwitchState.SW_NORMAL⟩).label = some 9 ∧
     (yield 9 COR_WAITING 42 ⟨some 1, none, none, 0, COR_RUNNING, SwitchState.SW_NORMAL⟩).state = COR_WAITING ∧
     (yield 9 COR_WAITING 42 ⟨some 1, none, none, 0, COR_RUNNING, SwitchState.SW_NORMAL⟩).timeout = 42 ∧
     (yield 9 COR_WAITING 42 ⟨some 1, none, none, 0, COR_RUNNING, SwitchState.SW_NORMAL⟩).swstate = SwitchState.SW_ABORT) :=
  ⟨by decide, yield_records 9 42 COR_WAITING _ (by decide)⟩

/-- C9: for every non-null handle holding a value other than -1, `CorDelete`
returns false and leaves the coroutine table, the task record and the
caller's handle variable unchanged. -/
theorem corDelete_noop (s : CorSysT) (hv : Int) (h : hv ≠ -1) :
    CorDelete hv s = (false, hv, s) := by
  simp [CorDelete, h]

/-- Witness for C9: deleting handle value 2 in a concrete state. -/
theorem corDelete_noop_witness :
    (2 : Int) ≠ -1 ∧ CorDelete 2 resumeBugSys = (false, 2, resumeBugSys) :=
  ⟨by decide, corDelete_noop resumeBugSys 2 (by decide)⟩

/-- C10: `CorCreate` returns false and leaves the task table unchanged
whenever the caller's handle variable does not hold -1 on entry, regardless of
free slots or a non-null callback. -/
theorem corCreate_requires_minus_one (s : CorSysT) (hv : Int) (f a : Option Nat)
    (h : hv ≠ -1) : CorCreate hv f a s = (false, hv, s) := by
  simp [CorCreate, h]

/-- Witness for C10: handle value 3, non-null callback, free slots present. -/
theorem corCreate_requires_minus_one_witness :
    (3 : Int) ≠ -1 ∧ (corGet resumeBugSys 2).func ≠ none ∧
    CorCreate 3 (some 5) none resumeBugSys = (false, 3, resumeBugSys) :=
  ⟨by decide, by decide, corCreate_requires_minus_one resumeBugSys 3 (some 5) none (by decide)⟩

/-- C5 (code bug): `CorResume` on handle value 2 (slot 2 `WAITING` with
timeout 50, current slot `INDEX = 1` with timeout 7, tick 5) sets slot 2
READY but leaves slot 2's timeout at 50, clearing slot 1's timeout instead,
because `CorSetTimeout` writes the slot at `INDEX`. -/
theorem corResume_clears_caller_not_target :
    (corGet (CorResume 5 2 resumeBugSys) 2).state = COR_READY ∧
    (corGet resumeBugSys 2).timeout = 50 ∧
    (corGet (CorResume 5 2 resumeBugSys) 2).timeout = 50 ∧
    (corGet resumeBugSys 1).timeout = 7 ∧
    (corGet (CorResume 5 2 resumeBugSys) 1).timeout = 0 ∧
    (corGet (CorResume 5 2 resumeBugSys) 1).lastTick = 5 := by decide

/-- Reading a slot of the timeout-manager pass: slot `j` inside the loop range
is replaced by `corTimeoutStep`, everything else is untouched. -/
theorem corGet_tdisp (now : Nat) (s : CorSysT) (j : Int) :
    corGet (corTimeoutDisp now s) j =
      if j.toNat < s.cap.toNat ∧ j.toNat < s.coroutines.length then
        corTimeoutStep now (corGet s j)
      else corGet s j := by
  unfold corGet corTimeoutDisp
  exact getD_mapFirst (corTimeoutStep now) s.cap.toNat s.coroutines j.toNat corZero

/-- A `WAITING` slot whose timeout has elapsed (under unsigned 32-bit
subtraction) is woken by the loop body: state `READY`, timeout 0. -/
theorem corTimeoutStep_wake (now : Nat) (c : Coroutine)
    (hw : c.state = COR_WAITING) (hle : c.timeout ≤ usub32 now c.lastTick) :
    (corTimeoutStep now c).state = COR_READY ∧ (corTimeoutStep now c).timeout = 0 := by
  by_cases h0 : 0 < c.timeout
  · simp [corTimeoutStep, hw, h0, hle]
  · have ht : c.timeout = 0 := by omega
    simp [corTimeoutStep, hw, h0, ht]

/-- A `WAITING` slot whose timeout has not yet elapsed is left untouched by
the loop body. -/
theorem corTimeoutStep_stay (now : Nat) (c : Coroutine)
    (hw : c.state = COR_WAITING) (hlt : usub32 now c.lastTick < c.timeout) :
    corTimeoutStep now c = c := by
  have h0 : 0 < c.timeout := by omega
  have hn : ¬(c.timeout ≤ usub32 now c.lastTick) := by omega
  simp [corTimeoutStep, hw, h0, hn]

/-- C4: on a timeout-manager pass at tick `now`, every `WAITING` slot whose
timeout is at most the elapsed `now - lastTick` (unsigned 32-bit) becomes
`READY` with timeout 0, and every `WAITING` slot whose timeout exceeds the
elapsed time is left unchanged (in particular still `WAITING`), so no
`WAITING` slot wakes before its timeout has elapsed. -/
theorem corTimeoutDisp_waiting (now : Nat) (s : CorSysT) (i : Nat)
    (hcap : i < s.cap.toNat) (hlen : i < s.coroutines.length)
    (hw : (s.coroutines.getD i corZero).state = COR_WAITING) :
    ((s.coroutines.getD i corZero).timeout ≤
        usub32 now (s.coroutines.getD i corZero).lastTick →
      ((corTimeoutDisp now s).coroutines.getD i corZero).state = COR_READY ∧
      ((corTimeoutDisp now s).coroutines.getD i corZero).timeout = 0) ∧
    (usub32 now (s.coroutines.getD i corZero).lastTick <
        (s.coroutines.getD i corZero).timeout →
      (corTimeoutDisp now s).coroutines.getD i corZero =
        s.coroutines.getD i corZero ∧
      ((corTimeoutDisp now s).coroutines.getD i corZero).state = COR_WAITING) := by
  have hget : (corTimeoutDisp now s).coroutines.getD i corZero =
      corTimeoutStep now (s.coroutines.getD i corZero) := by
    have := corGet_tdisp now s (i : Int)
    simpa [corGet, hcap, hlen] using this
  rw [hget]
  refine ⟨fun hle => corTimeoutStep_wake now _ hw hle, fun hlt => ?_⟩
  have hst := corTimeoutStep_stay now _ hw hlt
  exact ⟨hst, by rw [hst, hw]⟩

/-- Concrete scheduler state for the C4 witness: slot 1 `WAITING` with
timeout 10 set at tick 0. -/
def tdispSys : CorSysT :=
  { cap := 2, index := 0,
    coroutines :=
      [{ corZero with func := some CorIdleFuncId, state := COR_READY },
       { corZero with func := some 1, timeout := 10, lastTick := 0, state := COR_WAITING }],
    tickSrc := some 0, staticTick := 0 }

/-- Witness for C4: at tick 10, slot 1 (timeout 10 set at tick 0) wakes. -/
theorem corTimeoutDisp_waiting_witness :
    ((corTimeoutDisp 10 tdispSys).coroutines.getD 1 corZero).state = COR_READY ∧
    ((corTimeoutDisp 10 tdispSys).coroutines.getD 1 corZero).timeout = 0 :=
  (corTimeoutDisp_waiting 10 tdispSys 1 (by decide) (by decide) (by decide)).1 (by decide)

/-- C6: tick wraparound is transparent: with `lastTick = 0xFFFFFFF0` and
`now = 0x00000010` the unsigned 32-bit delta is 32, and any `WAITING` slot
with a timeout of at most 32 ms (such as a 20 ms wait) becomes `READY` with
timeout 0 on the first timeout-manager pass at that tick. -/
theorem tick_wraparound (s : CorSysT) (i : Nat)
    (hcap : i < s.cap.toNat) (hlen : i < s.coroutines.length)
    (hw : (s.coroutines.getD i corZero).state = COR_WAITING)
    (hlast : (s.coroutines.getD i corZero).lastTick = 4294967280)
    (htmo : (s.coroutines.getD i corZero).timeout ≤ 32) :
    usub32 16 4294967280 = 32 ∧
    ((corTimeoutDisp 16 s).coroutines.getD i corZero).state = COR_READY ∧
    ((corTimeoutDisp 16 s).coroutines.getD i corZero).timeout = 0 := by
  have hget : (corTimeoutDisp 16 s).coroutines.getD i corZero =
      corTimeoutStep 16 (s.coroutines.getD i corZero) := by
    have := corGet_tdisp 16 s (i : Int)
    simpa [corGet, hcap, hlen] using this
  have hd : usub32 16 4294967280 = 32 := by decide
  rw [hget]
  refine ⟨hd, corTimeoutStep_wake 16 _ hw ?_⟩
  rw [hlast, hd]
  exact htmo

/-- Concrete scheduler state for the C6 witness: slot 1 `WAITING` for 20 ms
with `lastTick = 0xFFFFFFF0`. -/
def wrapSys : CorSysT :=
  { cap := 2, index := 0,
    coroutines :=
      [{ corZero with func := some CorIdleFuncId, state := COR_READY },
       { corZero with func := some 1, timeout := 20, lastTick := 4294967280,
                      state := COR_WAITING }],
    tickSrc := some 0, staticTick := 0 }

/-- Witness for C6: the 20 ms waiter wakes when the tick has wrapped to
`0x00000010`. -/
theorem tick_wraparound_witness :
    usub32 16 4294967280 = 32 ∧
    ((corTimeoutDisp 16 wrapSys).coroutines.getD 1 corZero).state = COR_READY ∧
    ((corTimeoutDisp 16 wrapSys).coroutines.getD 1 corZero).timeout = 0 :=
  tick_wraparound wrapSys 1 (by decide) (by decide) (by decide) (by decide) (by decide)

/-- Reading a slot of a replicated list. -/
theorem getD_replicate {α : Type} (n i : Nat) (a d : α) :
    (List.replicate n a).getD i d = if i < n then a else d := by
  induction n generalizing i with
  | zero => simp
  | succ n' ih =>
    cases i with
    | zero => simp [List.replicate]
    | succ i' => simpa [List.replicate, Nat.succ_lt_succ_iff] using ih i'

/-- C7: with the identification capacity = `cap` - 1 (the spec's `capacity`
counts user slots, `CorInit`'s `cap` argument counts total slots including
the idle slot 0), `CorInit (capacity + 1)` succeeds for every
1 ≤ capacity ≤ 31 and non-null tick source, allocating capacity + 1 slots —
all zeroed except the idle coroutine installed `READY` at slot 0 — and at
most 32 slots ever exist; for capacity outside that range, or a null tick
source, it returns false with the state unchanged. -/
theorem CorInit_capacity (c : Int) (tk : Nat) (s : CorSysT) :
    (1 ≤ c ∧ c ≤ 31 →
      (CorInit (c + 1) (some tk) s).1 = true ∧
      (CorInit (c + 1) (some tk) s).2.coroutines.length = (c + 1).toNat ∧
      (CorInit (c + 1) (some tk) s).2.coroutines.getD 0 corZero =
        { corZero with func := some CorIdleFuncId, state := COR_READY } ∧
      (∀ i : Nat, 1 ≤ i → i < (c + 1).toNat →
        (CorInit (c + 1) (some tk) s).2.coroutines.getD i corZero = corZero) ∧
      (CorInit (c + 1) (some tk) s).2.coroutines.length ≤ 32 ∧
      (CorInit (c + 1) (some tk) s).2.tickSrc = some tk) ∧
    (c < 1 ∨ 31 < c → CorInit (c + 1) (some tk) s = (false, s)) ∧
    (∀ cp : Int, CorInit cp none s = (false, s)) := by
  refine ⟨fun h => ?_, fun h => ?_, fun cp => ?_⟩
  · have hg : ¬(c + 1 ≤ 1 ∨ 32 < c + 1 ∨ (some tk : Option Nat) = none) := by
      rintro (hx | hx | hx)
      · omega
      · omega
      · exact Option.noConfusion hx
    simp only [CorInit, if_neg hg]
    refine ⟨by trivial, by simp, ?_, ?_, by simp; omega, by trivial⟩
    · rw [getD_set, if_pos]
      exact ⟨rfl, by simp; omega⟩
    · intro i hi1 hi2
      rw [getD_set, if_neg (by omega), getD_replicate, if_pos hi2]
  · have hg : c + 1 ≤ 1 ∨ 32 < c + 1 ∨ (some tk : Option Nat) = none := by
      rcases h with h | h
      · exact Or.inl (by omega)
      · exact Or.inr (Or.inl (by omega))
    simp only [CorInit, if_pos hg]
  · simp [CorInit]

/-- A fully uninitialized scheduler state (before any `CorInit`). -/
def initSys0 : CorSysT :=
  { cap := 0, index := -1, coroutines := [], tickSrc := none, staticTick := 0 }

/-- Witness for C7 at capacity 3 (success), capacity 0 and 32 (failure), and
a null tick source (failure). -/
theorem CorInit_capacity_witness :
    (CorInit 4 (some 7) initSys0).1 = true ∧
    (CorInit 4 (some 7) initSys0).2.coroutines.getD 2 corZero = corZero ∧
    CorInit 1 (some 7) initSys0 = (false, initSys0) ∧
    CorInit 33 (some 7) initSys0 = (false, initSys0) ∧
    CorInit 4 none initSys0 = (false, initSys0) := by
  have h3 := CorInit_capacity 3 7 initSys0
  have h0 := CorInit_capacity 0 7 initSys0
  have h32 := CorInit_capacity 32 7 initSys0
  refine ⟨?_, ?_, ?_, ?_, h3.2.2 4⟩
  · exact (h3.1 (by omega)).1
  · exact (h3.1 (by omega)).2.2.2.1 2 (by omega) (by decide)
  · exact h0.2.1 (by omega)
  · exact h32.2.1 (by omega)

/-- Reading past the end of a list yields the default. -/
theorem getD_of_len_le {α : Type} :
    ∀ (l : List α) (n : Nat) (d : α), l.length ≤ n → l.getD n d = d
  | [], _, _, _ => rfl
  | _ :: t, n + 1, d, h => getD_of_len_le t n d (by simpa using h)

/-- The round-robin scan only moves the index: table, capacity and static
tick are unchanged, and on success the index is the selected slot. -/
theorem scanReady_shape (fuel : Nat) :
    ∀ (s : CorSysT) (j : Int) (s' : CorSysT), scanReady fuel s = some (j, s') →
      s'.coroutines = s.coroutines ∧ s'.cap = s.cap ∧
      s'.staticTick = s.staticTick ∧ s'.index = j := by
  induction fuel with
  | zero =>
    intro s j s' h
    rw [scanReady] at h
    exact Option.noConfusion h
  | succ fuel ih =>
    intro s j s' h
    rw [scanReady] at h
    dsimp [switchNext] at h
    set nxt : Int := if s.index + 1 ≥ s.cap then 0 else s.index + 1 with hnxt
    split at h
    · simp only [Option.some.injEq, Prod.mk.injEq] at h
      obtain ⟨h1, h2⟩ := h
      subst h1
      subst h2
      exact ⟨rfl, rfl, rfl, rfl⟩
    · obtain ⟨a, b, c, d⟩ := ih _ _ _ h
      exact ⟨a, b, c, d⟩

/-- Soundness of the round-robin scan: a successful scan starting at
`index + 1` returns the first slot, in cyclic order modulo `cap`, whose state
is `READY`; all slots probed before it (slot 0 included) are not `READY`. -/
theorem scanReady_spec (fuel : Nat) :
    ∀ (s : CorSysT) (j : Int) (s' : CorSysT),
      0 < s.cap → -1 ≤ s.index → s.index < s.cap →
      scanReady fuel s = some (j, s') →
      ∃ n : Nat, n < fuel ∧ j = (s.index + 1 + n) % s.cap ∧
        (corGet s j).state = COR_READY ∧
        ∀ m : Nat, m < n → (corGet s ((s.index + 1 + m) % s.cap)).state ≠ COR_READY := by
  induction fuel with
  | zero =>
    intro s j s' _ _ _ h
    rw [scanReady] at h
    exact Option.noConfusion h
  | succ fuel ih =>
    intro s j s' hcap hi1 hi2 h
    rw [scanReady] at h
    dsimp [switchNext] at h
    have hnx : (if s.index + 1 ≥ s.cap then (0 : Int) else s.index + 1) =
        (s.index + 1) % s.cap := by
      split
      · have hix : s.index + 1 = s.cap := by omega
        rw [hix, Int.emod_self]
      · rw [Int.emod_eq_of_lt (by omega) (by omega)]
    rw [hnx] at h
    have hnx0 : (0 : Int) ≤ (s.index + 1) % s.cap := Int.emod_nonneg _ (by omega)
    have hnxc : (s.index + 1) % s.cap < s.cap := Int.emod_lt_of_pos _ hcap
    have hshift : ∀ k : Int, ((s.index + 1) % s.cap + 1 + k) % s.cap =
        (s.index + 1 + (1 + k)) % s.cap := by
      intro k
      rw [add_assoc, Int.emod_add_emod]
    split at h
    case isTrue hr =>
      simp only [Option.some.injEq, Prod.mk.injEq] at h
      obtain ⟨h1, _⟩ := h
      refine ⟨0, by omega, ?_, ?_, fun m hm => absurd hm (by omega)⟩
      · rw [← h1]
        norm_num
      · rw [← h1]
        exact hr
    case isFalse hr =>
      obtain ⟨n, hn, hj, hready, hprev⟩ :=
        ih { s with index := (s.index + 1) % s.cap } j s' hcap
          (by show (-1 : Int) ≤ (s.index + 1) % s.cap; omega)
          (by show (s.index + 1) % s.cap < s.cap; exact hnxc) h
      refine ⟨n + 1, by omega, ?_, hready, ?_⟩
      · rw [hj]
        show ((s.index + 1) % s.cap + 1 + (n : Int)) % s.cap = _
        rw [hshift]
        congr 1
        push_cast
        ring
      · intro m hm
        cases m with
        | zero =>
          have heq : (s.index + 1 + ((0 : Nat) : Int)) % s.cap = (s.index + 1) % s.cap := by
            norm_num
          rw [heq]
          exact hr
        | succ m' =>
          have h2 := hprev m' (by omega)
          have heq : ((s.index + 1) % s.cap + 1 + (m' : Int)) % s.cap =
              (s.index + 1 + ((m' + 1 : Nat) : Int)) % s.cap := by
            rw [hshift]
            congr 1
            push_cast
            ring
          rw [← heq]
          exact h2

/-- C3 (amended): the dispatcher's selection.  When the current slot is valid,
`READY`, and the tick has advanced since the last dispatch, the current slot
is re-selected immediately without rotation.  Otherwise, after the
timeout-manager pass, the scan is round-robin starting at slot
`(current_id + 1) mod capacity` over ALL slots — slot 0 participates like any
other and is not skipped: the first `READY` slot in cyclic order is selected
(so slot 0 can be selected while other slots are `READY`), and the selected
slot is marked `RUNNING` and becomes the current index. -/
theorem corGetNextTaskId_selection (now : Nat) (s : CorSysT)
    (hcap : 0 < s.cap) (hi1 : -1 ≤ s.index) (hi2 : s.index < s.cap) :
    ((s.index ≠ -1 ∧ (corGet s s.index).state = COR_READY ∧ now ≠ s.staticTick) →
      corGetNextTaskId now s =
        some (s.index, changeState { s with staticTick := now } s.index COR_RUNNING)) ∧
    (∀ (j : Int) (s₂ : CorSysT),
      ¬(s.index ≠ -1 ∧ (corGet s s.index).state = COR_READY ∧ now ≠ s.staticTick) →
      corGetNextTaskId now s = some (j, s₂) →
      ∃ n : Nat, (n : Int) < s.cap ∧ j = (s.index + 1 + n) % s.cap ∧
        (corGet (corTimeoutDisp now s) j).state = COR_READY ∧
        (∀ m : Nat, m < n →
          (corGet (corTimeoutDisp now s) ((s.index + 1 + m) % s.cap)).state ≠ COR_READY) ∧
        s₂.index = j ∧ (corGet s₂ j).state = COR_RUNNING) := by
  constructor
  · intro hc
    rw [corGetNextTaskId, if_pos hc]
  · intro j s₂ hnc hres
    rw [corGetNextTaskId, if_neg hnc] at hres
    cases hscan : scanReady (corTimeoutDisp now s).cap.toNat (corTimeoutDisp now s) with
    | none =>
      rw [hscan] at hres
      exact Option.noConfusion hres
    | some p =>
      obtain ⟨j', s'⟩ := p
      rw [hscan] at hres
      simp only [Option.some.injEq, Prod.mk.injEq] at hres
      obtain ⟨rfl, hs₂⟩ := hres
      obtain ⟨hsco, hscap, hstk, hsidx⟩ := scanReady_shape _ _ _ _ hscan
      obtain ⟨n, hn, hj, hready, hprev⟩ :=
        scanReady_spec _ (corTimeoutDisp now s) j' s'
          (by show 0 < s.cap; exact hcap)
          (by show (-1 : Int) ≤ s.index; exact hi1)
          (by show s.index < s.cap; exact hi2) hscan
      refine ⟨n, ?_, hj, hready, hprev, ?_, ?_⟩
      · have hn' : n < s.cap.toNat := hn
        omega
      · rw [← hs₂]
        show ({ s' with staticTick := now } : CorSysT).index = j'
        exact hsidx
      · rw [← hs₂]
        have hrange : j'.toNat < (corTimeoutDisp now s).coroutines.length := by
          by_contra hge
          push_neg at hge
          have hz : corGet (corTimeoutDisp now s) j' = corZero := by
            unfold corGet
            exact getD_of_len_le _ _ _ hge
          rw [hz] at hready
          exact absurd hready (by decide)
        have hlen2 : ({ s' with staticTick := now } : CorSysT).coroutines.length =
            (corTimeoutDisp now s).coroutines.length := by
          show s'.coroutines.length = _
          rw [hsco]
        show (corGet (changeState { s' with staticTick := now } j' COR_RUNNING) j').state =
          COR_RUNNING
        rw [changeState, corGet_corSet, if_pos ⟨rfl, by rw [hlen2]; exact hrange⟩]

/-- Concrete scheduler state for C3: capacity 3, current index 2, slot 0
(idle) READY, slot 1 READY, slot 2 WAITING; tick unchanged at 5. -/
def rrSys : CorSysT :=
  { cap := 3, index := 2,
    coroutines :=
      [{ corZero with func := some CorIdleFuncId, state := COR_READY },
       { corZero with func := some 1, state := COR_READY },
       { corZero with func := some 2, timeout := 100, lastTick := 0,
                      state := COR_WAITING }],
    tickSrc := some 0, staticTick := 5 }

/-- The scheduler state after the dispatch on `rrSys`. -/
def rrOut : CorSysT := ((corGetNextTaskId 5 rrSys).getD (0, rrSys)).2

/-- C3 counterexample: in `rrSys`, slot 1 is READY at selection time (after
the timeout-manager pass), yet the dispatcher selects slot 0 (the idle
coroutine), refuting the claim that slot 0 is skipped and selected only when
no other slot is READY. -/
theorem corGetNextTaskId_no_idle_skip_cex :
    (corGet (corTimeoutDisp 5 rrSys) 1).state = COR_READY ∧
    (corGetNextTaskId 5 rrSys).map Prod.fst = some 0 := by decide

/-- Witness for C3: applying the selection theorem to `rrSys`. -/
theorem corGetNextTaskId_selection_witness :
    corGetNextTaskId 5 rrSys = some (0, rrOut) ∧ (corGet rrOut 0).state = COR_RUNNING := by
  have hres : corGetNextTaskId 5 rrSys = some (0, rrOut) := by decide
  have h := (corGetNextTaskId_selection 5 rrSys (by decide) (by decide) (by decide)).2
    0 rrOut (by decide) hres
  obtain ⟨n, _, _, _, _, _, hrun⟩ := h
  exact ⟨hres, hrun⟩

/-- Soundness of the `CorCreate` slot search: a found slot lies in the loop
range, its state is `COR_NONE`, and every earlier slot in the range is not
`COR_NONE`. -/
theorem findNoneFrom_spec (fuel : Nat) :
    ∀ (cs : List Coroutine) (cap i j : Nat),
      findNoneFrom cs cap i fuel = some j →
      i ≤ j ∧ j < cap ∧ (cs.getD j corZero).state = COR_NONE ∧
      ∀ m : Nat, i ≤ m → m < j → (cs.getD m corZero).state ≠ COR_NONE := by
  induction fuel with
  | zero =>
    intro cs cap i j h
    rw [findNoneFrom] at h
    exact Option.noConfusion h
  | succ fuel ih =>
    intro cs cap i j h
    rw [findNoneFrom] at h
    split at h
    case isFalse => exact Option.noConfusion h
    case isTrue hic =>
      split at h
      case isTrue hnone =>
        simp only [Option.some.injEq] at h
        subst h
        exact ⟨le_refl _, hic, hnone, fun m h1 h2 => absurd h2 (by omega)⟩
      case isFalse hnone =>
        obtain ⟨h1, h2, h3, h4⟩ := ih cs cap (i + 1) j h
        refine ⟨by omega, h2, h3, fun m hm1 hm2 => ?_⟩
        rcases Nat.eq_or_lt_of_le hm1 with heq | hlt
        · rw [← heq]
          exact hnone
        · exact h4 m (by omega) hm2

/-- `CorDelete` never succeeds: its guard requires `*handle = -1` (to defeat
`isNotNull`) and simultaneously `*handle = CorIdleHandle = 0` (to defeat
`!isIdle`), which is impossible, so it always returns false leaving
everything unchanged. -/
theorem corDelete_eq (hv : Int) (s : CorSysT) : CorDelete hv s = (false, hv, s) := by
  by_cases h : hv = -1
  · rw [CorDelete, if_pos (Or.inr (Or.inl (by omega)))]
  · rw [CorDelete, if_pos (Or.inl h)]

/-- Writing one slot with a record that keeps the slot's callback, and whose
state is either the old state or at least not `COR_NONE`, preserves "not
`COR_NONE`" and the callback of every slot. -/
theorem corSet_keep (s : CorSysT) (i : Int) (c : Coroutine) (j : Int)
    (hf : c.func = (corGet s i).func)
    (hs : c.state = (corGet s i).state ∨ c.state ≠ COR_NONE)
    (h : (corGet s j).state ≠ COR_NONE) :
    (corGet (corSet s i c) j).state ≠ COR_NONE ∧
    (corGet (corSet s i c) j).func = (corGet s j).func := by
  rw [corGet_corSet]
  by_cases hc : i.toNat = j.toNat ∧ i.toNat < s.coroutines.length
  · rw [if_pos hc]
    have hij : corGet s i = corGet s j := by
      unfold corGet
      rw [hc.1]
    refine ⟨?_, by rw [hf, hij]⟩
    rcases hs with hs | hs
    · rw [hs, hij]
      exact h
    · exact hs
  · rw [if_neg hc]
    exact ⟨h, rfl⟩

/-- `changeState` to a state other than `COR_NONE` preserves "not `COR_NONE`"
and the callback of every slot. -/
theorem changeState_keep (s : CorSysT) (i : Int) (st : CorState) (j : Int)
    (hst : st ≠ COR_NONE) (h : (corGet s j).state ≠ COR_NONE) :
    (corGet (changeState s i st) j).state ≠ COR_NONE ∧
    (corGet (changeState s i st) j).func = (corGet s j).func :=
  corSet_keep s i _ j rfl (Or.inr hst) h

/-- `CorSetTimeout` preserves every slot's state and callback. -/
theorem corSetTimeout_keep (now tmo : Nat) (s : CorSysT) (j : Int)
    (h : (corGet s j).state ≠ COR_NONE) :
    (corGet (CorSetTimeout now tmo s) j).state ≠ COR_NONE ∧
    (corGet (CorSetTimeout now tmo s) j).func = (corGet s j).func :=
  corSet_keep s s.index _ j rfl (Or.inl rfl) h

/-- `corSetLabel` preserves every slot's state and callback. -/
theorem corSetLabel_keep (lbl : Option Nat) (s : CorSysT) (j : Int)
    (h : (corGet s j).state ≠ COR_NONE) :
    (corGet (corSetLabel lbl s) j).state ≠ COR_NONE ∧
    (corGet (corSetLabel lbl s) j).func = (corGet s j).func :=
  corSet_keep s s.index _ j rfl (Or.inl rfl) h

/-- `corSetLabelFlag` preserves every slot's state and callback. -/
theorem corSetLabelFlag_keep (b : Bool) (s : CorSysT) (j : Int)
    (h : (corGet s j).state ≠ COR_NONE) :
    (corGet (corSetLabelFlag b s) j).state ≠ COR_NONE ∧
    (corGet (corSetLabelFlag b s) j).func = (corGet s j).func :=
  corSet_keep s s.index _ j rfl (Or.inl rfl) h

/-- The timeout-manager loop body keeps the callback and either keeps the
state or sets it `READY`. -/
theorem corTimeoutStep_shape (now : Nat) (c : Coroutine) :
    (corTimeoutStep now c).func = c.func ∧
    ((corTimeoutStep now c).state = c.state ∨ (corTimeoutStep now c).state = COR_READY) := by
  unfold corTimeoutStep
  split
  · exact ⟨rfl, Or.inl rfl⟩
  · split
    · split
      · exact ⟨rfl, Or.inr rfl⟩
      · exact ⟨rfl, Or.inl rfl⟩
    · exact ⟨rfl, Or.inr rfl⟩

/-- A timeout-manager pass preserves "not `COR_NONE`" and the callback of
every slot. -/
theorem tdisp_keep (now : Nat) (s : CorSysT) (j : Int)
    (h : (corGet s j).state ≠ COR_NONE) :
    (corGet (corTimeoutDisp now s) j).state ≠ COR_NONE ∧
    (corGet (corTimeoutDisp now s) j).func = (corGet s j).func := by
  rw [corGet_tdisp]
  split
  · obtain ⟨hf, hs⟩ := corTimeoutStep_shape now (corGet s j)
    refine ⟨?_, hf⟩
    rcases hs with hs | hs
    · rw [hs]
      exact h
    · rw [hs]
      exact fun hx => CorState.noConfusion hx
  · exact ⟨h, rfl⟩

/-- `CorResume` preserves "not `COR_NONE`" and the callback of every slot. -/
theorem corResume_keep (now : Nat) (hv : Int) (s : CorSysT) (j : Int)
    (h : (corGet s j).state ≠ COR_NONE) :
    (corGet (CorResume now hv s) j).state ≠ COR_NONE ∧
    (corGet (CorResume now hv s) j).func = (corGet s j).func := by
  unfold CorResume
  split
  · exact ⟨h, rfl⟩
  · have h1 := changeState_keep s hv COR_READY j (by decide) h
    have h2 := corSetTimeout_keep now 0 (changeState s hv COR_READY) j h1.1
    exact ⟨h2.1, h2.2.trans h1.2⟩

/-- `Yield` preserves "not `COR_NONE`" and the callback of every slot. -/
theorem yield_keep (now : Nat) (lbl : Option Nat) (s : CorSysT) (j : Int)
    (h : (corGet s j).state ≠ COR_NONE) :
    (corGet (Yield now lbl s) j).state ≠ COR_NONE ∧
    (corGet (Yield now lbl s) j).func = (corGet s j).func := by
  unfold Yield
  split
  · exact ⟨h, rfl⟩
  · have h1 := changeState_keep s s.index COR_WAITING j (by decide) h
    have h2 := corSetTimeout_keep now 0 (changeState s s.index COR_WAITING) j h1.1
    have h3 := corSetLabel_keep lbl
      (CorSetTimeout now 0 (changeState s s.index COR_WAITING)) j h2.1
    exact ⟨h3.1, (h3.2.trans h2.2).trans h1.2⟩

/-- `Suspend` preserves "not `COR_NONE`" and the callback of every slot. -/
theorem suspend_keep (hd : Option Int) (s : CorSysT) (j : Int)
    (h : (corGet s j).state ≠ COR_NONE) :
    (corGet (Suspend hd s) j).state ≠ COR_NONE ∧
    (corGet (Suspend hd s) j).func = (corGet s j).func := by
  cases hd with
  | none => exact changeState_keep s s.index COR_SUSPEND j (by decide) h
  | some hv =>
    dsimp only [Suspend]
    split
    · exact ⟨h, rfl⟩
    · exact changeState_keep s hv COR_SUSPEND j (by decide) h

/-- `CorRestart` preserves "not `COR_NONE`" and the callback of every slot. -/
theorem corRestart_keep (now : Nat) (hv : Int) (s : CorSysT) (j : Int)
    (h : (corGet s j).state ≠ COR_NONE) :
    (corGet (CorRestart now hv s) j).state ≠ COR_NONE ∧
    (corGet (CorRestart now hv s) j).func = (corGet s j).func := by
  have h1 := corResume_keep now hv s j h
  have h2 := corSetLabelFlag_keep false (CorResume now hv s) j h1.1
  exact ⟨h2.1, h2.2.trans h1.2⟩

/-- `CorBegin` preserves "not `COR_NONE`" and the callback of every slot. -/
theorem corBegin_keep (lbl : Option Nat) (s : CorSysT) (j : Int)
    (h : (corGet s j).state ≠ COR_NONE) :
    (corGet (CorBegin lbl s).2 j).state ≠ COR_NONE ∧
    (corGet (CorBegin lbl s).2 j).func = (corGet s j).func := by
  unfold CorBegin
  split
  · have h1 := corSetLabel_keep lbl s j h
    have h2 := corSetLabelFlag_keep true (corSetLabel lbl s) j h1.1
    exact ⟨h2.1, h2.2.trans h1.2⟩
  · exact ⟨h, rfl⟩

/-- `CorEnd` preserves "not `COR_NONE`" and the callback of every slot. -/
theorem corEnd_keep (lbl : Option Nat) (s : CorSysT) (j : Int)
    (h : (corGet s j).state ≠ COR_NONE) :
    (corGet (CorEnd lbl s) j).state ≠ COR_NONE ∧
    (corGet (CorEnd lbl s) j).func = (corGet s j).func := by
  have h1 := corSetLabel_keep lbl s j h
  have h2 := corSetLabelFlag_keep false (corSetLabel lbl s) j h1.1
  exact ⟨h2.1, h2.2.trans h1.2⟩

/-- One scheduler operation never returns a slot to `COR_NONE` and never
changes the callback of a slot that is not `COR_NONE`. -/
theorem stepOp_nonNone (op : CorOp) (s : CorSysT) (j : Int)
    (h : (corGet s j).state ≠ COR_NONE) :
    (corGet (stepOp op s) j).state ≠ COR_NONE ∧
    (corGet (stepOp op s) j).func = (corGet s j).func := by
  cases op with
  | create hv f a =>
    dsimp only [stepOp]
    unfold CorCreate
    split
    · exact ⟨h, rfl⟩
    · cases hfind : findNoneFrom s.coroutines s.cap.toNat 1 s.cap.toNat with
      | none => exact ⟨h, rfl⟩
      | some i =>
        obtain ⟨_, _, hnone, _⟩ := findNoneFrom_spec _ _ _ _ _ hfind
        show (corGet (corSet s (i : Int) _) j).state ≠ COR_NONE ∧
          (corGet (corSet s (i : Int) _) j).func = (corGet s j).func
        rw [corGet_corSet]
        split
        case isTrue hc =>
          exfalso
          apply h
          have hjj : corGet s j = corGet s (i : Int) := by
            unfold corGet
            rw [← hc.1]
          rw [hjj]
          show (s.coroutines.getD ((i : Nat) : Int).toNat corZero).state = COR_NONE
          rw [Int.toNat_natCast]
          exact hnone
        case isFalse => exact ⟨h, rfl⟩
  | delete hv =>
    dsimp only [stepOp]
    rw [corDelete_eq]
    exact ⟨h, rfl⟩
  | resume now hv => exact corResume_keep now hv s j h
  | restart now hv => exact corRestart_keep now hv s j h
  | susp hd => exact suspend_keep hd s j h
  | yld now lbl => exact yield_keep now lbl s j h
  | setTmo now tmo => exact corSetTimeout_keep now tmo s j h
  | tdisp now => exact tdisp_keep now s j h
  | disp now =>
    dsimp only [stepOp]
    cases hres : corGetNextTaskId now s with
    | none => exact ⟨h, rfl⟩
    | some p =>
      rw [corGetNextTaskId] at hres
      split at hres
      case isTrue hc =>
        simp only [Option.some.injEq] at hres
        rw [← hres]
        have h' : (corGet ({ s with staticTick := now } : CorSysT) j).state ≠ COR_NONE := h
        have hk := changeState_keep { s with staticTick := now } s.index COR_RUNNING j
          (by decide) h'
        exact ⟨hk.1, hk.2⟩
      case isFalse =>
        cases hscan : scanReady (corTimeoutDisp now s).cap.toNat (corTimeoutDisp now s) with
        | none =>
          rw [hscan] at hres
          exact Option.noConfusion hres
        | some q =>
          obtain ⟨j', s'⟩ := q
          rw [hscan] at hres
          simp only [Option.some.injEq] at hres
          rw [← hres]
          obtain ⟨hsco, _, _, _⟩ := scanReady_shape _ _ _ _ hscan
          have htd := tdisp_keep now s j h
          have hG : ∀ x : Int, corGet ({ s' with staticTick := now } : CorSysT) x =
              corGet (corTimeoutDisp now s) x := by
            intro x
            show s'.coroutines.getD x.toNat corZero = _
            rw [hsco]
            rfl
          have h1 : (corGet ({ s' with staticTick := now } : CorSysT) j).state ≠ COR_NONE := by
            rw [hG]
            exact htd.1
          have h2 := changeState_keep { s' with staticTick := now } j' COR_RUNNING j
            (by decide) h1
          refine ⟨h2.1, ?_⟩
          rw [h2.2, hG, htd.2]
  | rearm =>
    dsimp only [stepOp]
    split
    · exact changeState_keep s s.index COR_READY j (by decide) h
    · exact ⟨h, rfl⟩
  | cbeg lbl => exact corBegin_keep lbl s j h
  | cend lbl => exact corEnd_keep lbl s j h

/-- Running any sequence of scheduler operations never returns a slot to
`COR_NONE` and never changes the callback of a non-`COR_NONE` slot. -/
theorem runOps_nonNone (ops : List CorOp) :
    ∀ (s : CorSysT) (j : Int), (corGet s j).state ≠ COR_NONE →
      (corGet (runOps ops s) j).state ≠ COR_NONE ∧
      (corGet (runOps ops s) j).func = (corGet s j).func := by
  induction ops with
  | nil => intro s j h; exact ⟨h, rfl⟩
  | cons op ops ih =>
    intro s j h
    have h1 := stepOp_nonNone op s j h
    have h2 := ih (stepOp op s) j h1.1
    exact ⟨h2.1, h2.2.trans h1.2⟩

/-- C8: within one init cycle (an arbitrary sequence of scheduler operations
between the two calls, `CorInit`/`CorDestroy` excluded), every successful
`CorCreate` hands out the first free (`COR_NONE`) slot with index at least 1
and marks it `READY` with the given callback; a later successful `CorCreate`
returns a strictly larger slot index (so no two successful creates return the
same handle — slots are never reused), and the first task's slot keeps its
callback across all intervening operations (handle stability). -/
theorem corCreate_sequential (s : CorSysT) (hv1 hv2 : Int) (f1 a1 f2 a2 : Nat)
    (ops : List CorOp) (i1 i2 : Int) (s1 s2 : CorSysT)
    (hlen : s.cap.toNat ≤ s.coroutines.length)
    (hc1 : CorCreate hv1 (some f1) (some a1) s = (true, i1, s1))
    (hc2 : CorCreate hv2 (some f2) (some a2) (runOps ops s1) = (true, i2, s2)) :
    1 ≤ i1 ∧ (corGet s i1).state = COR_NONE ∧
    (corGet s1 i1).state = COR_READY ∧ (corGet s1 i1).func = some f1 ∧
    (corGet (runOps ops s1) i1).func = some f1 ∧
    (corGet (runOps ops s1) i1).state ≠ COR_NONE ∧
    i1 < i2 := by
  unfold CorCreate at hc1
  split at hc1
  · simp at hc1
  · cases hf1 : findNoneFrom s.coroutines s.cap.toNat 1 s.cap.toNat with
    | none =>
      rw [hf1] at hc1
      simp at hc1
    | some k1 =>
      rw [hf1] at hc1
      simp only [Prod.mk.injEq] at hc1
      obtain ⟨-, hi1, hs1⟩ := hc1
      subst hi1
      obtain ⟨hk1a, hk1b, hk1none, hk1first⟩ := findNoneFrom_spec _ _ _ _ _ hf1
      have hcast : ((k1 : Int)).toNat = k1 := Int.toNat_natCast k1
      have hG1 : corGet s (k1 : Int) = s.coroutines.getD k1 corZero := by
        unfold corGet
        rw [hcast]
      have hrange1 : ((k1 : Int)).toNat < s.coroutines.length := by omega
      have hready1 : (corGet s1 (k1 : Int)).state = COR_READY ∧
          (corGet s1 (k1 : Int)).func = some f1 := by
        rw [← hs1, corGet_corSet, if_pos ⟨rfl, hrange1⟩]
        exact ⟨rfl, rfl⟩
      have hother : ∀ m : Nat, m ≠ k1 → corGet s1 (m : Int) = corGet s (m : Int) := by
        intro m hm
        rw [← hs1, corGet_corSet, if_neg (by simp only [Int.toNat_natCast]; omega)]
      have hrun := runOps_nonNone ops s1 (k1 : Int)
        (by rw [hready1.1]; exact fun hx => CorState.noConfusion hx)
      unfold CorCreate at hc2
      split at hc2
      · simp at hc2
      · cases hf2 : findNoneFrom (runOps ops s1).coroutines
            (runOps ops s1).cap.toNat 1 (runOps ops s1).cap.toNat with
        | none =>
          rw [hf2] at hc2
          simp at hc2
        | some k2 =>
          rw [hf2] at hc2
          simp only [Prod.mk.injEq] at hc2
          obtain ⟨-, hi2, -⟩ := hc2
          subst hi2
          obtain ⟨hk2a, hk2b, hk2none, hk2first⟩ := findNoneFrom_spec _ _ _ _ _ hf2
          refine ⟨by exact_mod_cast hk1a, by rw [hG1]; exact hk1none,
            hready1.1, hready1.2, by rw [hrun.2]; exact hready1.2, hrun.1, ?_⟩
          have hne : ∀ m : Nat, 1 ≤ m → m ≤ k1 →
              (corGet (runOps ops s1) (m : Int)).state ≠ COR_NONE := by
            intro m hm1 hm2
            rcases Nat.lt_or_ge m k1 with hlt | hge
            · have hs' : (corGet s1 (m : Int)).state ≠ COR_NONE := by
                rw [hother m (by omega)]
                unfold corGet
                rw [Int.toNat_natCast]
                exact hk1first m hm1 hlt
              exact (runOps_nonNone ops s1 (m : Int) hs').1
            · have hmk : m = k1 := by omega
              subst hmk
              exact hrun.1
          have hk2G : (corGet (runOps ops s1) (k2 : Int)).state = COR_NONE := by
            unfold corGet
            rw [Int.toNat_natCast]
            exact hk2none
          have hlt12 : k1 < k2 := by
            by_contra hcon
            push_neg at hcon
            exact hne k2 hk2a hcon hk2G
          exact_mod_cast hlt12

/-- Concrete post-init scheduler state for the C8 witness: capacity 4, idle
at slot 0, three free slots. -/
def seqSys : CorSysT :=
  { cap := 4, index := -1,
    coroutines :=
      [{ corZero with func := some CorIdleFuncId, state := COR_READY },
       corZero, corZero, corZero],
    tickSrc := some 0, staticTick := 0 }

/-- State after the first `CorCreate` on `seqSys`. -/
def seqS1 : CorSysT := (CorCreate (-1) (some 10) (some 0) seqSys).2.2

/-- Intervening operations between the two creates of the C8 witness: a
dispatch, the dispatcher re-arm, and a timeout-manager pass. -/
def seqOps : List CorOp := [CorOp.disp 1, CorOp.rearm, CorOp.tdisp 2]

/-- State after the second `CorCreate` of the C8 witness. -/
def seqS2 : CorSysT := (CorCreate (-1) (some 11) (some 0) (runOps seqOps seqS1)).2.2

/-- Witness for C8: two successful creates separated by dispatcher activity
hand out slots 1 and 2, and slot 1 keeps its callback. -/
theorem corCreate_sequential_witness :
    CorCreate (-1) (some 10) (some 0) seqSys = (true, 1, seqS1) ∧
    CorCreate (-1) (some 11) (some 0) (runOps seqOps seqS1) = (true, 2, seqS2) ∧
    (corGet (runOps seqOps seqS1) 1).func = some 10 ∧ (1 : Int) < 2 := by
  have h := corCreate_sequential seqSys (-1) (-1) 10 0 11 0 seqOps 1 2 seqS1 seqS2
    (by decide) (by decide) (by decide)
  exact ⟨by decide, by decide, h.2.2.2.2.1, h.2.2.2.2.2.2⟩
